import Mathlib

/-!
Verification of the vision-hub face-recognition pipeline
(src/inference/processor.py and src/backend/routers/video_feed.py).

The Python pipeline is shallowly embedded: dictionaries become total
functions with explicit defaults, wall-clock instants and machine floats
become exact rationals, and every fallible side effect (image write,
ledger write, HTTP forward, camera read) is represented by an explicit
boolean outcome supplied to the embedded operation.  Logging and the
statistics counters of the source, which no claim mentions, are not
modelled.
-/

namespace VisionHub

/-- A wall-clock timestamp.  The source renders timestamps as
"%Y-%m-%d %H:%M:%S" and later recovers the two halves by splitting on the
single space (log_attendance), so the (date, time) pair is the faithful
representation; the rendered string is `date ++ " " ++ time`. -/
structure Timestamp where
  date : String
  time : String
deriving DecidableEq

/-- The `parameters` dictionary of FaceRecognitionProcessor, restricted to
the keys read by the verified operations, together with the face database
loaded by load_models (db_embeddings / db_labels). -/
structure Params where
  threshold : ℚ
  required_confirmations : Nat
  unknown_interval : ℚ
  min_face_size : Nat
  max_failures : Nat
  reconnect_delay : Nat
  db_embeddings : List (List ℚ)
  db_labels : List String

/-- One row of the hourly attendance ledger, as written by
log_attendance: `writer.writerow([name, date, time_val, camera_id])`. -/
structure AttendanceRecord where
  name : String
  date : String
  time : String
  camera_id : String
deriving DecidableEq

/-- The mutable tracking dictionaries of FaceRecognitionProcessor.__init__:
`attendance_log`, `confirmation_counts` (read through `.get(name, 0)`),
and `last_unknown_saved_time`, each embedded as a total function. -/
structure TrackState where
  attendance_log : String → Option Timestamp
  confirmation_counts : String → Nat
  last_unknown_saved_time : String → Option ℚ

/-- The initial tracking state built in __init__: all three dicts empty. -/
def initState : TrackState :=
  { attendance_log := fun _ => none
    confirmation_counts := fun _ => 0
    last_unknown_saved_time := fun _ => none }

/-- Filename generated by save_face_crop:
`f"{camera_id}_{name}_{timestamp.replace(':', '-').replace(' ', '_')}.jpg"`. -/
def saveFilename (camera_id name : String) (ts : Timestamp) : String :=
  camera_id ++ "_" ++ name ++ "_" ++
    (((ts.date ++ " " ++ ts.time).replace ":" "-").replace " " "_") ++ ".jpg"

/-- Result of handle_known_face: the updated tracking state, the returned
image filename, the ledger rows appended by log_attendance, how many
evidence writes (save_face_crop calls) were attempted, and how many
on_attendance callback invocations happened. -/
structure KnownOut where
  st : TrackState
  image_filename : Option String
  rows : List AttendanceRecord
  evidence_attempts : Nat
  callbacks : Nat

/-- FaceRecognitionProcessor.handle_known_face.  `on_attendance` states
whether an attendance callback is configured; `saveOk` and `ledgerOk` are
the outcomes of the fallible image write (save_face_crop returns None on
failure) and ledger write (log_attendance catches its own errors). -/
def handle_known_face (p : Params) (on_attendance saveOk ledgerOk : Bool)
    (name : String) (ts : Timestamp) (camera_id : String) (st : TrackState) :
    KnownOut :=
  match st.attendance_log name with
  | some _ => ⟨st, none, [], 0, 0⟩
  | none =>
    let c := st.confirmation_counts name + 1
    let counts' := fun n => if n = name then c else st.confirmation_counts n
    if p.required_confirmations ≤ c then
      { st := { attendance_log := fun n => if n = name then some ts else st.attendance_log n
                confirmation_counts := counts'
                last_unknown_saved_time := st.last_unknown_saved_time }
        image_filename := if saveOk then some (saveFilename camera_id name ts) else none
        rows := if ledgerOk then [⟨name, ts.date, ts.time, camera_id⟩] else []
        evidence_attempts := 1
        callbacks := if on_attendance then 1 else 0 }
    else
      { st := { st with confirmation_counts := counts' }
        image_filename := none
        rows := []
        evidence_attempts := 0
        callbacks := 0 }

/-- A detected bounding box (x1, y1, x2, y2), as produced by the detector
and truncated to ints by `map(int, box)` in the source. -/
structure Box where
  x1 : Int
  y1 : Int
  x2 : Int
  y2 : Int
deriving DecidableEq

/-- The payload passed to the on_violation callback in process_frame. -/
structure DetectionEvent where
  camera_id : String
  name : String
  confidence : ℚ
  timestamp : Timestamp
  bbox : Box
  image_filename : Option String
  small_face : Bool
deriving DecidableEq

/-- Aggregate outcome of processing one known-face sighting in
process_frame: handle_known_face followed by the on_violation emission. -/
structure SightOut where
  st : TrackState
  rows : List AttendanceRecord
  evidence_attempts : Nat
  callbacks : Nat
  events : List DetectionEvent

/-- The known-face branch of process_frame for one sighting of `name`:
dispatch to handle_known_face, then (when an on_violation callback is
configured) emit one detection event carrying the returned filename. -/
def knownSighting (p : Params) (on_violation on_attendance saveOk ledgerOk : Bool)
    (name : String) (conf : ℚ) (ts : Timestamp) (camera_id : String) (bbox : Box)
    (st : TrackState) : SightOut :=
  let k := handle_known_face p on_attendance saveOk ledgerOk name ts camera_id st
  { st := k.st
    rows := k.rows
    evidence_attempts := k.evidence_attempts
    callbacks := k.callbacks
    events := if on_violation then
        [⟨camera_id, name, conf, ts, bbox, k.image_filename, false⟩] else [] }

/-- Run a sequence of known-face sightings of the same label (one frame
each, with the given timestamps), accumulating all side effects. -/
def runKnown (p : Params) (ov oa sOk lOk : Bool) (name : String) (conf : ℚ)
    (camera_id : String) (bbox : Box) :
    List Timestamp → TrackState → SightOut
  | [], st => ⟨st, [], 0, 0, []⟩
  | ts :: rest, st =>
    let o := knownSighting p ov oa sOk lOk name conf ts camera_id bbox st
    let r := runKnown p ov oa sOk lOk name conf camera_id bbox rest o.st
    ⟨r.st, o.rows ++ r.rows, o.evidence_attempts + r.evidence_attempts,
      o.callbacks + r.callbacks, o.events ++ r.events⟩

/-- Result of handle_unknown_face: the updated state, the returned image
filename, and how many evidence writes (save_face_crop calls) were
attempted. -/
structure UnknownOut where
  st : TrackState
  image_filename : Option String
  evidence_attempts : Nat

/-- FaceRecognitionProcessor.handle_unknown_face: write evidence when the
camera has no prior save or `current_time - last > unknown_interval`;
update `last_unknown_saved_time[camera_id]` whenever the write path runs
(even if the write itself fails and returns None). -/
def handle_unknown_face (p : Params) (saveOk : Bool) (now : ℚ)
    (ts : Timestamp) (camera_id : String) (st : TrackState) : UnknownOut :=
  let writeNow : Bool :=
    match st.last_unknown_saved_time camera_id with
    | none => true
    | some last => decide (p.unknown_interval < now - last)
  if writeNow then
    { st := { st with last_unknown_saved_time :=
                fun c => if c = camera_id then some now else st.last_unknown_saved_time c }
      image_filename := if saveOk then some (saveFilename camera_id "Unknown" ts) else none
      evidence_attempts := 1 }
  else
    { st := st, image_filename := none, evidence_attempts := 0 }

/-! ### Matcher (match_face) -/

/-- Dot product of two embedding vectors (componentwise, like numpy). -/
def dot : List ℚ → List ℚ → ℚ
  | x :: xs, y :: ys => x * y + dot xs ys
  | _, _ => 0

/-- Cosine distance between the query and a gallery vector.  sklearn's
cosine_distances computes 1 − u·v / (‖u‖·‖v‖); both the query (L2
normalized by get_embedding) and the stored gallery vectors (spec §3
invariant) are unit vectors, for which the expression equals 1 − u·v,
which is the exact-rational form embedded here. -/
def cosineDistance (u v : List ℚ) : ℚ := 1 - dot u v

/-- np.argmin helper: scan the remaining distances keeping the first
index attaining the minimum (strict `<` to replace, as numpy keeps the
earliest occurrence). -/
def argminAux : Nat × ℚ → Nat → List ℚ → Nat × ℚ
  | best, _, [] => best
  | (bi, bv), i, x :: xs =>
    if x < bv then argminAux (i, x) (i + 1) xs else argminAux (bi, bv) (i + 1) xs

/-- np.argmin over a nonempty list given as head and tail, returning the
first minimizing index together with the minimum value. -/
def argminList (d : ℚ) (ds : List ℚ) : Nat × ℚ := argminAux (0, d) 1 ds

/-- FaceRecognitionProcessor.match_face.  A None embedding, an empty
gallery (np.argmin raises, caught by the bare except) or an out-of-range
label index (IndexError, likewise caught) all yield ("Unknown", 1.0). -/
def match_face (p : Params) (embedding : Option (List ℚ)) : String × ℚ :=
  match embedding with
  | none => ("Unknown", 1)
  | some e =>
    match p.db_embeddings with
    | [] => ("Unknown", 1)
    | g :: gs =>
      let r := argminList (cosineDistance e g) (gs.map (cosineDistance e))
      if r.2 < p.threshold then
        match p.db_labels[r.1]? with
        | some l => (l, r.2)
        | none => ("Unknown", 1)
      else ("Unknown", r.2)

/-! ### Crop geometry (crop_face_with_buffer) -/

/-- Python `int()` on a float: truncation toward zero, embedded on ℚ. -/
def pyInt (q : ℚ) : Int := if 0 ≤ q then ⌊q⌋ else ⌈q⌉

/-- The (horizontal, up, down) expansion fractions chosen by box area in
crop_face_with_buffer (0.2/0.2/0.3, 0.15/0.15/0.3, 0.1/0.1/0.1). -/
def expandFractions (area : Int) : ℚ × ℚ × ℚ :=
  if area < 8000 then (2/10, 2/10, 3/10)
  else if area < 25000 then (15/100, 15/100, 3/10)
  else (1/10, 1/10, 1/10)

/-- The expanded, frame-clipped crop window computed by
crop_face_with_buffer before slicing the image. -/
structure CropWindow where
  x1 : Int
  y1 : Int
  x2 : Int
  y2 : Int
deriving DecidableEq

/-- Expansion and clipping with explicit fractions, mirroring the four
assignments `x1 = int(max(0, x1 - w*expand_x))` etc. of the source. -/
def expandClip (imgW imgH : Int) (b : Box) (ex eu ed : ℚ) : CropWindow :=
  let w : Int := b.x2 - b.x1
  let h : Int := b.y2 - b.y1
  { x1 := pyInt (max 0 ((b.x1 : ℚ) - (w : ℚ) * ex))
    x2 := pyInt (min (imgW : ℚ) ((b.x2 : ℚ) + (w : ℚ) * ex))
    y1 := pyInt (max 0 ((b.y1 : ℚ) - (h : ℚ) * eu))
    y2 := pyInt (min (imgH : ℚ) ((b.y2 : ℚ) + (h : ℚ) * ed)) }

/-- FaceRecognitionProcessor.crop_face_with_buffer on a frame of width
imgW and height imgH. -/
def crop_face_with_buffer (imgW imgH : Int) (b : Box) : CropWindow :=
  let f := expandFractions ((b.x2 - b.x1) * (b.y2 - b.y1))
  expandClip imgW imgH b f.1 f.2.1 f.2.2

/-- Height of the cropped numpy array (`cropped.shape[0]`); an empty
slice has size 0, hence the truncation to Nat. -/
def cropHeight (c : CropWindow) : Nat := (c.y2 - c.y1).toNat

/-- Width of the cropped numpy array (`cropped.shape[1]`). -/
def cropWidth (c : CropWindow) : Nat := (c.x2 - c.x1).toNat

/-! ### Per-box pipeline (process_frame body) -/

/-- Aggregate outcome of the per-box part of process_frame: the updated
tracking state, the events handed to on_violation, whether the embedding
stage (get_embedding) and the matcher (match_face) ran for this box, and
the ledger/evidence/callback side effects. -/
structure BoxOut where
  st : TrackState
  events : List DetectionEvent
  embed_invoked : Bool
  match_invoked : Bool
  rows : List AttendanceRecord
  evidence_attempts : Nat
  callbacks : Nat

/-- The body of the per-box loop of process_frame: expanded crop, size
gate, embedding (outcome supplied by the `embedResult` oracle, None on
model failure), matching, known/unknown dispatch, and the on_violation
emission.  `ov`/`oa` state whether the respective callbacks are
configured; `now` is the time.time() instant used by the unknown-face
cooldown. -/
def processBox (p : Params) (ov oa sOk lOk : Bool) (imgW imgH : Int)
    (bbox : Box) (embedResult : Option (List ℚ)) (ts : Timestamp) (now : ℚ)
    (camera_id : String) (st : TrackState) : BoxOut :=
  let crop := crop_face_with_buffer imgW imgH bbox
  if cropHeight crop < p.min_face_size ∨ cropWidth crop < p.min_face_size then
    { st := st
      events := if ov then [⟨camera_id, "Unknown", 0, ts, bbox, none, true⟩] else []
      embed_invoked := false
      match_invoked := false
      rows := []
      evidence_attempts := 0
      callbacks := 0 }
  else
    let nd := match_face p embedResult
    let conf : ℚ := if nd.1 ≠ "Unknown" then 1 - nd.2 else 0
    if nd.1 ≠ "Unknown" then
      let k := handle_known_face p oa sOk lOk nd.1 ts camera_id st
      { st := k.st
        events := if ov then [⟨camera_id, nd.1, conf, ts, bbox, k.image_filename, false⟩] else []
        embed_invoked := true
        match_invoked := true
        rows := k.rows
        evidence_attempts := k.evidence_attempts
        callbacks := k.callbacks }
    else
      let u := handle_unknown_face p sOk now ts camera_id st
      { st := u.st
        events := if ov then [⟨camera_id, "Unknown", conf, ts, bbox, u.image_filename, false⟩] else []
        embed_invoked := true
        match_invoked := true
        rows := []
        evidence_attempts := u.evidence_attempts
        callbacks := 0 }

/-! ### Event emitter (video_feed.py) -/

/-- Key of the `_last_violation_emit` table: (str(camera_id), str(name)). -/
abbrev EmitKey := String × String

/-- _should_emit_violation: the table is read through `.get(key, 0.0)`,
embedded as a total function with default 0.  Returns the decision and
the (possibly updated) table. -/
def should_emit_violation (interval : ℚ) (tbl : EmitKey → ℚ)
    (camera_id name : String) (now : ℚ) : Bool × (EmitKey → ℚ) :=
  let key : EmitKey := (camera_id, name)
  if now - tbl key < interval then (false, tbl)
  else (true, fun k => if k = key then now else tbl k)

/-- _emit_violation: gated by EMIT_VIOLATIONS, then by
_should_emit_violation; the HTTP forward happens after the table update
and its failure is caught, so `forward_ok` cannot influence the table.
Returns (forward attempted, forward succeeded, table). -/
def emit_violation (emit_enabled : Bool) (interval : ℚ) (forward_ok : Bool)
    (tbl : EmitKey → ℚ) (camera_id name : String) (now : ℚ) :
    Bool × Bool × (EmitKey → ℚ) :=
  if emit_enabled then
    let r := should_emit_violation interval tbl camera_id name now
    if r.1 then (true, forward_ok, r.2) else (false, false, r.2)
  else (false, false, tbl)

/-- Run a sequence of _should_emit_violation calls for one (camera, name)
key at the given instants, counting how many events were forwarded. -/
def emitFold (interval : ℚ) (camera_id name : String) :
    List ℚ → (EmitKey → ℚ) → Nat × (EmitKey → ℚ)
  | [], tbl => (0, tbl)
  | t :: ts, tbl =>
    let r := should_emit_violation interval tbl camera_id name t
    let rest := emitFold interval camera_id name ts r.2
    ((if r.1 then 1 else 0) + rest.1, rest.2)

/-! ### Camera worker loop (process_camera) -/

/-- The loop-local reconnect state of process_camera: whether a capture
handle is currently held and the consecutive-failure counter. -/
structure CamState where
  cap : Bool
  failCount : Nat
deriving DecidableEq

/-- One failed `cap.read()` in process_camera: increment fail_count; at
max_failures release the handle and reset the counter. -/
def failStep (p : Params) (st : CamState) : CamState :=
  let fc := st.failCount + 1
  if p.max_failures ≤ fc then { cap := false, failCount := 0 }
  else { cap := st.cap, failCount := fc }

/-- The interruptible backoff `for _ in range(int(reconnect_delay)):
if not running: break; sleep(1)`: number of one-second sleeps actually
performed, given the running flag observed at each check (check index 0
first). -/
def backoffTicks : Nat → (Nat → Bool) → Nat
  | 0, _ => 0
  | d + 1, f => if f 0 then backoffTicks d (fun i => f (i + 1)) + 1 else 0

/-- The cap-is-None branch of the worker loop: check running (flag 0),
wait with per-second checks (flag 1 .. flag delay), re-check running, and
reopen the source if still running.  Returns (sleeps performed, whether a
new open was attempted). -/
def reconnectBranch (delay : Nat) (flag : Nat → Bool) : Nat × Bool :=
  if flag 0 then
    let ticks := backoffTicks delay (fun i => flag (i + 1))
    (ticks, flag (ticks + 1))
  else (0, false)

/-! ### Per-frame resolution adjustment (process_camera) -/

/-- The downsample decision of the worker loop: resize to the stream
resolution when the capture resolution exceeds it in width or height
(`if cap_w > stream_w or cap_h > stream_h`), otherwise leave the frame
alone.  The source fixes stream = (1280, 720). -/
def downsampleTarget (capture stream : Nat × Nat) : Option (Nat × Nat) :=
  if stream.1 < capture.1 ∨ stream.2 < capture.2 then some stream else none

/-- Dimensions of a frame captured at `capture` after the per-frame
cv2.resize step. -/
def resizeFrame (capture stream : Nat × Nat) : Nat × Nat :=
  match downsampleTarget capture stream with
  | some t => t
  | none => capture

/-! ### Lemmas about the attendance state machine -/

lemma handle_known_face_done (p : Params) (oa sOk lOk : Bool) (name : String)
    (ts : Timestamp) (cam : String) (st : TrackState) (u : Timestamp)
    (h : st.attendance_log name = some u) :
    handle_known_face p oa sOk lOk name ts cam st = ⟨st, none, [], 0, 0⟩ := by
  simp [handle_known_face, h]

lemma handle_known_face_count (p : Params) (oa sOk lOk : Bool) (name : String)
    (ts : Timestamp) (cam : String) (st : TrackState)
    (h : st.attendance_log name = none)
    (hlt : st.confirmation_counts name + 1 < p.required_confirmations) :
    (handle_known_face p oa sOk lOk name ts cam st).st.attendance_log = st.attendance_log ∧
    (handle_known_face p oa sOk lOk name ts cam st).st.confirmation_counts name
      = st.confirmation_counts name + 1 ∧
    (∀ n, n ≠ name → (handle_known_face p oa sOk lOk name ts cam st).st.confirmation_counts n
      = st.confirmation_counts n) ∧
    (handle_known_face p oa sOk lOk name ts cam st).st.last_unknown_saved_time
      = st.last_unknown_saved_time ∧
    (handle_known_face p oa sOk lOk name ts cam st).image_filename = none ∧
    (handle_known_face p oa sOk lOk name ts cam st).rows = [] ∧
    (handle_known_face p oa sOk lOk name ts cam st).evidence_attempts = 0 ∧
    (handle_known_face p oa sOk lOk name ts cam st).callbacks = 0 := by
  have hn : ¬ p.required_confirmations ≤ st.confirmation_counts name + 1 := by omega
  refine ⟨?_, ?_, ?_, ?_, ?_, ?_, ?_, ?_⟩ <;>
    simp [handle_known_face, h, hn] <;> intro n hne <;> simp [hne]

lemma handle_known_face_confirm (p : Params) (oa sOk lOk : Bool) (name : String)
    (ts : Timestamp) (cam : String) (st : TrackState)
    (h : st.attendance_log name = none)
    (hge : p.required_confirmations ≤ st.confirmation_counts name + 1) :
    (handle_known_face p oa sOk lOk name ts cam st).st.attendance_log name = some ts ∧
    (∀ n, n ≠ name → (handle_known_face p oa sOk lOk name ts cam st).st.attendance_log n
      = st.attendance_log n) ∧
    (handle_known_face p oa sOk lOk name ts cam st).st.confirmation_counts name
      = st.confirmation_counts name + 1 ∧
    (∀ n, n ≠ name → (handle_known_face p oa sOk lOk name ts cam st).st.confirmation_counts n
      = st.confirmation_counts n) ∧
    (handle_known_face p oa sOk lOk name ts cam st).st.last_unknown_saved_time
      = st.last_unknown_saved_time ∧
    (handle_known_face p oa sOk lOk name ts cam st).image_filename
      = (if sOk then some (saveFilename cam name ts) else none) ∧
    (handle_known_face p oa sOk lOk name ts cam st).rows
      = (if lOk then [⟨name, ts.date, ts.time, cam⟩] else []) ∧
    (handle_known_face p oa sOk lOk name ts cam st).evidence_attempts = 1 ∧
    (handle_known_face p oa sOk lOk name ts cam st).callbacks = (if oa then 1 else 0) := by
  refine ⟨?_, ?_, ?_, ?_, ?_, ?_, ?_, ?_, ?_⟩ <;>
    simp [handle_known_face, h, hge] <;> intro n hne <;> simp [hne]

lemma runKnown_after (p : Params) (ov oa sOk lOk : Bool) (name : String) (conf : ℚ)
    (cam : String) (bbox : Box) (tss : List Timestamp) (st : TrackState) (u : Timestamp)
    (h : st.attendance_log name = some u) :
    (runKnown p ov oa sOk lOk name conf cam bbox tss st).st = st ∧
    (runKnown p ov oa sOk lOk name conf cam bbox tss st).rows = [] ∧
    (runKnown p ov oa sOk lOk name conf cam bbox tss st).evidence_attempts = 0 ∧
    (runKnown p ov oa sOk lOk name conf cam bbox tss st).callbacks = 0 ∧
    (runKnown p ov oa sOk lOk name conf cam bbox tss st).events.length
      = (if ov then tss.length else 0) := by
  induction tss with
  | nil => simp [runKnown]
  | cons ts rest ih =>
    have hk := handle_known_face_done p oa sOk lOk name ts cam st u h
    simp only [runKnown, knownSighting, hk] at *
    rcases ih with ⟨h1, h2, h3, h4, h5⟩
    refine ⟨h1, by simp [h2], by simp [h3], by simp [h4], ?_⟩
    rcases ov with _ | _ <;> simp_all

lemma runKnown_counting (p : Params) (ov oa sOk lOk : Bool) (name : String) (conf : ℚ)
    (cam : String) (bbox : Box) (tss : List Timestamp) :
    ∀ st : TrackState, st.attendance_log name = none →
    st.confirmation_counts name + tss.length < p.required_confirmations →
    (runKnown p ov oa sOk lOk name conf cam bbox tss st).st.attendance_log name = none ∧
    (runKnown p ov oa sOk lOk name conf cam bbox tss st).st.confirmation_counts name
      = st.confirmation_counts name + tss.length ∧
    (runKnown p ov oa sOk lOk name conf cam bbox tss st).rows = [] ∧
    (runKnown p ov oa sOk lOk name conf cam bbox tss st).evidence_attempts = 0 ∧
    (runKnown p ov oa sOk lOk name conf cam bbox tss st).callbacks = 0 ∧
    (runKnown p ov oa sOk lOk name conf cam bbox tss st).events.length
      = (if ov then tss.length else 0) := by
  induction tss with
  | nil => intro st h hlt; simp [runKnown, h]
  | cons ts rest ih =>
    intro st h hlt
    have hstep := handle_known_face_count p oa sOk lOk name ts cam st h (by simp at hlt; omega)
    rcases hstep with ⟨e1, e2, _, _, _, e6, e7, e8⟩
    set k := handle_known_face p oa sOk lOk name ts cam st with hk
    have hlog : k.st.attendance_log name = none := by rw [e1]; exact h
    have hrest := ih k.st hlog (by rw [e2]; simp at hlt ⊢; omega)
    rcases hrest with ⟨r1, r2, r3, r4, r5, r6⟩
    simp only [runKnown, knownSighting]
    rw [← hk]
    refine ⟨r1, by rw [r2, e2]; simp; omega, by simp [e6, r3], by simp [e7, r4],
      by simp [e8, r5], ?_⟩
    rcases ov with _ | _ <;> simp_all

lemma runKnown_confirms (p : Params) (ov oa sOk lOk : Bool) (name : String) (conf : ℚ)
    (cam : String) (bbox : Box) (tss : List Timestamp) :
    ∀ st : TrackState, st.attendance_log name = none →
    st.confirmation_counts name < p.required_confirmations →
    p.required_confirmations ≤ st.confirmation_counts name + tss.length →
    (runKnown p ov oa sOk lOk name conf cam bbox tss st).st.confirmation_counts name
      = p.required_confirmations ∧
    (∃ u, (runKnown p ov oa sOk lOk name conf cam bbox tss st).st.attendance_log name
      = some u) ∧
    (runKnown p ov oa sOk lOk name conf cam bbox tss st).rows.length
      = (if lOk then 1 else 0) ∧
    (runKnown p ov oa sOk lOk name conf cam bbox tss st).evidence_attempts = 1 ∧
    (runKnown p ov oa sOk lOk name conf cam bbox tss st).callbacks
      = (if oa then 1 else 0) ∧
    (runKnown p ov oa sOk lOk name conf cam bbox tss st).events.length
      = (if ov then tss.length else 0) := by
  induction tss with
  | nil => intro st _ hc hlen; simp at hlen; omega
  | cons ts rest ih =>
    intro st h hc hlen
    by_cases hge : p.required_confirmations ≤ st.confirmation_counts name + 1
    · have hstep := handle_known_face_confirm p oa sOk lOk name ts cam st h hge
      rcases hstep with ⟨e1, _, e3, _, _, _, e7, e8, e9⟩
      set k := handle_known_face p oa sOk lOk name ts cam st with hk
      have hrest := runKnown_after p ov oa sOk lOk name conf cam bbox rest k.st ts e1
      rcases hrest with ⟨r1, r2, r3, r4, r5⟩
      simp only [runKnown, knownSighting]
      rw [← hk]
      have hcount : k.st.confirmation_counts name = p.required_confirmations := by omega
      refine ⟨by rw [r1]; exact hcount, ⟨ts, by rw [r1]; exact e1⟩,
        by rw [e7, r2]; rcases lOk with _ | _ <;> simp,
        by simp [e8, r3], by rw [r4, e9]; simp, ?_⟩
      rcases ov with _ | _ <;> simp_all
    · have hlt : st.confirmation_counts name + 1 < p.required_confirmations := by omega
      have hstep := handle_known_face_count p oa sOk lOk name ts cam st h hlt
      rcases hstep with ⟨e1, e2, _, _, _, e6, e7, e8⟩
      set k := handle_known_face p oa sOk lOk name ts cam st with hk
      have hlog : k.st.attendance_log name = none := by rw [e1]; exact h
      have hrest := ih k.st hlog (by omega) (by rw [e2]; simp at hlen ⊢; omega)
      rcases hrest with ⟨r1, r2, r3, r4, r5, r6⟩
      simp only [runKnown, knownSighting]
      rw [← hk]
      refine ⟨r1, r2, by simp [e6, r3], by simp [e7, r4], by simp [e8, r5], ?_⟩
      rcases ov with _ | _ <;> simp_all

/-- The confirmation-bookkeeping invariant: no counter ever exceeds the
required-confirmations threshold, and a label is in the attendance log
exactly when its counter has reached the threshold. -/
def TrackInv (p : Params) (st : TrackState) : Prop :=
  ∀ n, st.confirmation_counts n ≤ p.required_confirmations ∧
    ((st.attendance_log n).isSome ↔ st.confirmation_counts n = p.required_confirmations)

lemma handle_known_face_inv (p : Params) (oa sOk lOk : Bool) (name : String)
    (ts : Timestamp) (cam : String) (st : TrackState)
    (hInv : TrackInv p st) :
    TrackInv p (handle_known_face p oa sOk lOk name ts cam st).st ∧
    (∀ n, st.confirmation_counts n
      ≤ (handle_known_face p oa sOk lOk name ts cam st).st.confirmation_counts n) ∧
    (∀ n t, st.attendance_log n = some t →
      (handle_known_face p oa sOk lOk name ts cam st).st.attendance_log n = some t) ∧
    (∀ n, (st.attendance_log n).isSome →
      (handle_known_face p oa sOk lOk name ts cam st).st.confirmation_counts n
        = st.confirmation_counts n) := by
  cases hlog : st.attendance_log name with
  | some u =>
    rw [handle_known_face_done p oa sOk lOk name ts cam st u hlog]
    exact ⟨hInv, fun n => le_refl _, fun n t h => h, fun n _ => rfl⟩
  | none =>
    have hc : st.confirmation_counts name < p.required_confirmations := by
      have h1 := (hInv name).1
      have h2 := (hInv name).2
      rw [hlog] at h2
      simp at h2
      omega
    by_cases hge : p.required_confirmations ≤ st.confirmation_counts name + 1
    · obtain ⟨e1, e2, e3, e4, -⟩ := handle_known_face_confirm p oa sOk lOk name ts cam st hlog hge
      refine ⟨?_, ?_, ?_, ?_⟩
      · intro n
        by_cases hn : n = name
        · subst hn
          refine ⟨by rw [e3]; omega, ?_⟩
          rw [e1, e3]
          simp
          omega
        · rw [e2 n hn, e4 n hn]
          exact hInv n
      · intro n
        by_cases hn : n = name
        · subst hn; rw [e3]; omega
        · rw [e4 n hn]
      · intro n t h
        have hn : n ≠ name := by
          intro he; rw [he, hlog] at h; exact Option.noConfusion h
        rw [e2 n hn]; exact h
      · intro n h
        have hn : n ≠ name := by
          intro he; rw [he, hlog] at h; simp at h
        rw [e4 n hn]
    · obtain ⟨e1, e2, e3, -⟩ := handle_known_face_count p oa sOk lOk name ts cam st hlog (by omega)
      refine ⟨?_, ?_, ?_, ?_⟩
      · intro n
        by_cases hn : n = name
        · subst hn
          refine ⟨by rw [e2]; omega, ?_⟩
          rw [e1, hlog, e2]
          simp
          omega
        · rw [e1, e3 n hn]
          exact hInv n
      · intro n
        by_cases hn : n = name
        · subst hn; rw [e2]; omega
        · rw [e3 n hn]
      · intro n t h
        rw [e1]; exact h
      · intro n h
        have hn : n ≠ name := by
          intro he; rw [he, hlog] at h; simp at h
        rw [e3 n hn]

lemma handle_unknown_face_track (p : Params) (sOk : Bool) (now : ℚ) (ts : Timestamp)
    (cam : String) (st : TrackState) :
    (handle_unknown_face p sOk now ts cam st).st.attendance_log = st.attendance_log ∧
    (handle_unknown_face p sOk now ts cam st).st.confirmation_counts
      = st.confirmation_counts := by
  simp only [handle_unknown_face]
  split <;> simp

lemma processBox_st (p : Params) (ov oa sOk lOk : Bool) (imgW imgH : Int) (bbox : Box)
    (er : Option (List ℚ)) (ts : Timestamp) (now : ℚ) (cam : String) (st : TrackState) :
    (processBox p ov oa sOk lOk imgW imgH bbox er ts now cam st).st = st ∨
    (processBox p ov oa sOk lOk imgW imgH bbox er ts now cam st).st
      = (handle_known_face p oa sOk lOk (match_face p er).1 ts cam st).st ∨
    (processBox p ov oa sOk lOk imgW imgH bbox er ts now cam st).st
      = (handle_unknown_face p sOk now ts cam st).st := by
  simp only [processBox]
  split
  · left; rfl
  · split
    · right; left; rfl
    · right; right; rfl

/-- C10: assuming the configured required-confirmations threshold is at
least 1, the per-box pipeline operation keeps the confirmation invariant:
every counter stays at most the threshold, a label is in the attendance
log exactly when its counter reached the threshold, counters never
decrease and are frozen once the label is confirmed, and no label is ever
removed from the attendance log; the initial state satisfies the
invariant. -/
theorem C10_confirmation_invariant (p : Params) (ov oa sOk lOk : Bool)
    (imgW imgH : Int) (bbox : Box) (er : Option (List ℚ)) (ts : Timestamp)
    (now : ℚ) (cam : String) (st : TrackState)
    (hT : 1 ≤ p.required_confirmations) (hInv : TrackInv p st) :
    TrackInv p initState ∧
    TrackInv p (processBox p ov oa sOk lOk imgW imgH bbox er ts now cam st).st ∧
    (∀ n, st.confirmation_counts n
      ≤ (processBox p ov oa sOk lOk imgW imgH bbox er ts now cam st).st.confirmation_counts n) ∧
    (∀ n t, st.attendance_log n = some t →
      (processBox p ov oa sOk lOk imgW imgH bbox er ts now cam st).st.attendance_log n
        = some t) ∧
    (∀ n, (st.attendance_log n).isSome →
      (processBox p ov oa sOk lOk imgW imgH bbox er ts now cam st).st.confirmation_counts n
        = st.confirmation_counts n) := by
  have hinit : TrackInv p initState := by
    intro n
    refine ⟨by simp [initState], ?_⟩
    simp [initState]
    omega
  refine ⟨hinit, ?_⟩
  rcases processBox_st p ov oa sOk lOk imgW imgH bbox er ts now cam st with h | h | h
  · rw [h]
    exact ⟨hInv, fun n => le_refl _, fun n t ht => ht, fun n _ => rfl⟩
  · rw [h]
    exact handle_known_face_inv p oa sOk lOk (match_face p er).1 ts cam st hInv
  · rw [h]
    obtain ⟨h1, h2⟩ := handle_unknown_face_track p sOk now ts cam st
    refine ⟨?_, ?_, ?_, ?_⟩
    · intro n; rw [h1, h2]; exact hInv n
    · intro n; rw [h2]
    · intro n t ht; rw [h1]; exact ht
    · intro n _; rw [h2]

/-- C1: with confirmation threshold T ≥ 1, a fresh label moves through
Unseen → Counting → Confirmed: each sighting while unconfirmed increments
its counter by one with no ledger row; over any run of at least T
sightings the label is confirmed exactly once — exactly one ledger row is
appended, exactly one evidence write is attempted and the attendance
callback (when configured) fires exactly once — the counter stays at T
afterwards, and every sighting, including those after confirmation, still
produces exactly one detection event. -/
theorem C1_attendance_state_machine (p : Params) (oa : Bool) (name : String)
    (conf : ℚ) (cam : String) (bbox : Box) (tss : List Timestamp) (st : TrackState)
    (hT : 1 ≤ p.required_confirmations)
    (hlog : st.attendance_log name = none)
    (hcnt : st.confirmation_counts name = 0)
    (hlen : p.required_confirmations ≤ tss.length) :
    (∀ k, k < p.required_confirmations →
      (runKnown p true oa true true name conf cam bbox (tss.take k) st).st.confirmation_counts name = k ∧
      (runKnown p true oa true true name conf cam bbox (tss.take k) st).rows = []) ∧
    (runKnown p true oa true true name conf cam bbox tss st).rows.length = 1 ∧
    (runKnown p true oa true true name conf cam bbox tss st).evidence_attempts = 1 ∧
    (runKnown p true oa true true name conf cam bbox tss st).callbacks
      = (if oa then 1 else 0) ∧
    (∃ u, (runKnown p true oa true true name conf cam bbox tss st).st.attendance_log name
      = some u) ∧
    (runKnown p true oa true true name conf cam bbox tss st).st.confirmation_counts name
      = p.required_confirmations ∧
    (runKnown p true oa true true name conf cam bbox tss st).events.length = tss.length := by
  constructor
  · intro k hk
    have hkl : (tss.take k).length = k := by
      rw [List.length_take]
      omega
    have hc := runKnown_counting p true oa true true name conf cam bbox (tss.take k) st hlog
      (by rw [hkl, hcnt]; omega)
    rcases hc with ⟨-, h2, h3, -⟩
    refine ⟨?_, h3⟩
    rw [h2, hcnt, hkl]
    omega
  · have hc := runKnown_confirms p true oa true true name conf cam bbox tss st hlog
      (by omega) (by rw [hcnt]; omega)
    rcases hc with ⟨c1, c2, c3, c4, c5, c6⟩
    exact ⟨by simpa using c3, c4, c5, c2, c1, by simpa using c6⟩

lemma knownSighting_after (p : Params) (ov oa sOk lOk : Bool) (name : String)
    (conf : ℚ) (ts : Timestamp) (cam : String) (bbox : Box) (st : TrackState)
    (u : Timestamp) (h : st.attendance_log name = some u) :
    (knownSighting p ov oa sOk lOk name conf ts cam bbox st).st = st ∧
    (knownSighting p ov oa sOk lOk name conf ts cam bbox st).rows = [] ∧
    (knownSighting p ov oa sOk lOk name conf ts cam bbox st).evidence_attempts = 0 ∧
    (knownSighting p ov oa sOk lOk name conf ts cam bbox st).callbacks = 0 ∧
    (knownSighting p ov oa sOk lOk name conf ts cam bbox st).events.length
      = (if ov then 1 else 0) := by
  have hd := handle_known_face_done p oa sOk lOk name ts cam st u h
  simp only [knownSighting, hd]
  rcases ov with _ | _ <;> simp

/-- C7: if the evidence-image write or the ledger write fails on the
confirming sighting of a label, the failure is absorbed: the label still
transitions to Confirmed, the detection event for that sighting is still
emitted, with no evidence filename when the image write failed (and no
ledger row when the ledger write failed), and the confirmation does not
roll back — any later sighting of the label is a pure detection event
with no new row, no evidence write, no callback and no state change. -/
theorem C7_storage_failure_no_rollback (p : Params) (oa sOk lOk : Bool)
    (name : String) (conf : ℚ) (ts : Timestamp) (cam : String) (bbox : Box)
    (st : TrackState)
    (hfail : sOk = false ∨ lOk = false)
    (hlog : st.attendance_log name = none)
    (hconf : p.required_confirmations ≤ st.confirmation_counts name + 1) :
    (knownSighting p true oa sOk lOk name conf ts cam bbox st).st.attendance_log name
      = some ts ∧
    (∃ e, (knownSighting p true oa sOk lOk name conf ts cam bbox st).events = [e] ∧
      e.small_face = false ∧ (sOk = false → e.image_filename = none)) ∧
    (lOk = false → (knownSighting p true oa sOk lOk name conf ts cam bbox st).rows = []) ∧
    (∀ (ov2 oa2 sOk2 lOk2 : Bool) (conf2 : ℚ) (ts2 : Timestamp) (cam2 : String)
      (bbox2 : Box),
      (knownSighting p ov2 oa2 sOk2 lOk2 name conf2 ts2 cam2 bbox2
        (knownSighting p true oa sOk lOk name conf ts cam bbox st).st).st.attendance_log name
        = some ts ∧
      (knownSighting p ov2 oa2 sOk2 lOk2 name conf2 ts2 cam2 bbox2
        (knownSighting p true oa sOk lOk name conf ts cam bbox st).st).st.confirmation_counts name
        = (knownSighting p true oa sOk lOk name conf ts cam bbox st).st.confirmation_counts name ∧
      (knownSighting p ov2 oa2 sOk2 lOk2 name conf2 ts2 cam2 bbox2
        (knownSighting p true oa sOk lOk name conf ts cam bbox st).st).rows = [] ∧
      (knownSighting p ov2 oa2 sOk2 lOk2 name conf2 ts2 cam2 bbox2
        (knownSighting p true oa sOk lOk name conf ts cam bbox st).st).evidence_attempts = 0 ∧
      (knownSighting p ov2 oa2 sOk2 lOk2 name conf2 ts2 cam2 bbox2
        (knownSighting p true oa sOk lOk name conf ts cam bbox st).st).callbacks = 0 ∧
      (knownSighting p ov2 oa2 sOk2 lOk2 name conf2 ts2 cam2 bbox2
        (knownSighting p true oa sOk lOk name conf ts cam bbox st).st).events.length
        = (if ov2 then 1 else 0)) := by
  obtain ⟨e1, -, -, -, -, e6, e7, -, -⟩ :=
    handle_known_face_confirm p oa sOk lOk name ts cam st hlog hconf
  have hst : (knownSighting p true oa sOk lOk name conf ts cam bbox st).st
      = (handle_known_face p oa sOk lOk name ts cam st).st := rfl
  refine ⟨by rw [hst]; exact e1, ?_, ?_, ?_⟩
  · refine ⟨⟨cam, name, conf, ts, bbox,
      (handle_known_face p oa sOk lOk name ts cam st).image_filename, false⟩, ?_, rfl, ?_⟩
    · simp [knownSighting]
    · intro hs
      rw [e6, hs]
      simp
  · intro hl
    have : (knownSighting p true oa sOk lOk name conf ts cam bbox st).rows
        = (handle_known_face p oa sOk lOk name ts cam st).rows := rfl
    rw [this, e7, hl]
    simp
  · intro ov2 oa2 sOk2 lOk2 conf2 ts2 cam2 bbox2
    obtain ⟨a1, a2, a3, a4, a5⟩ := knownSighting_after p ov2 oa2 sOk2 lOk2 name conf2 ts2
      cam2 bbox2 (knownSighting p true oa sOk lOk name conf ts cam bbox st).st ts
      (by rw [hst]; exact e1)
    exact ⟨by rw [a1, hst]; exact e1, by rw [a1], a2, a3, a4, a5⟩

/-! ### Unknown-face cooldown (handle_unknown_face) -/

lemma handle_unknown_none (p : Params) (sOk : Bool) (now : ℚ) (ts : Timestamp)
    (cam : String) (st : TrackState) (h : st.last_unknown_saved_time cam = none) :
    (handle_unknown_face p sOk now ts cam st).evidence_attempts = 1 ∧
    (handle_unknown_face p sOk now ts cam st).st.last_unknown_saved_time cam = some now := by
  simp [handle_unknown_face, h]

lemma handle_unknown_stale (p : Params) (sOk : Bool) (now last : ℚ) (ts : Timestamp)
    (cam : String) (st : TrackState) (h : st.last_unknown_saved_time cam = some last)
    (hlt : p.unknown_interval < now - last) :
    (handle_unknown_face p sOk now ts cam st).evidence_attempts = 1 ∧
    (handle_unknown_face p sOk now ts cam st).st.last_unknown_saved_time cam = some now := by
  simp [handle_unknown_face, h, hlt]

lemma handle_unknown_recent (p : Params) (sOk : Bool) (now last : ℚ) (ts : Timestamp)
    (cam : String) (st : TrackState) (h : st.last_unknown_saved_time cam = some last)
    (hle : now - last ≤ p.unknown_interval) :
    (handle_unknown_face p sOk now ts cam st).evidence_attempts = 0 ∧
    (handle_unknown_face p sOk now ts cam st).image_filename = none ∧
    (handle_unknown_face p sOk now ts cam st).st = st := by
  have : ¬ p.unknown_interval < now - last := not_lt.mpr hle
  simp [handle_unknown_face, h, this]

/-- C2 (amended): the unknown-face cooldown performs an evidence write
exactly when the camera has no prior save or the elapsed time since the
last save strictly exceeds the configured interval; a skipped write
leaves last_saved_at unchanged, a performed write updates it to the
current time; consequently two Unknown detections on the same camera
separated by at most the interval produce exactly one evidence write,
and two detections separated by more than the interval produce two. -/
theorem C2_unknown_throttle_amended (p : Params) (sOk : Bool) (ts : Timestamp)
    (cam : String) :
    (∀ (now : ℚ) (st : TrackState), st.last_unknown_saved_time cam = none →
      (handle_unknown_face p sOk now ts cam st).evidence_attempts = 1 ∧
      (handle_unknown_face p sOk now ts cam st).st.last_unknown_saved_time cam = some now) ∧
    (∀ (now last : ℚ) (st : TrackState), st.last_unknown_saved_time cam = some last →
      (p.unknown_interval < now - last →
        (handle_unknown_face p sOk now ts cam st).evidence_attempts = 1 ∧
        (handle_unknown_face p sOk now ts cam st).st.last_unknown_saved_time cam = some now) ∧
      (now - last ≤ p.unknown_interval →
        (handle_unknown_face p sOk now ts cam st).evidence_attempts = 0 ∧
        (handle_unknown_face p sOk now ts cam st).st = st)) ∧
    (∀ (t1 t2 : ℚ) (ts2 : Timestamp) (st : TrackState),
      st.last_unknown_saved_time cam = none →
      (t2 - t1 ≤ p.unknown_interval →
        (handle_unknown_face p sOk t1 ts cam st).evidence_attempts +
          (handle_unknown_face p sOk t2 ts2 cam
            (handle_unknown_face p sOk t1 ts cam st).st).evidence_attempts = 1) ∧
      (p.unknown_interval < t2 - t1 →
        (handle_unknown_face p sOk t1 ts cam st).evidence_attempts +
          (handle_unknown_face p sOk t2 ts2 cam
            (handle_unknown_face p sOk t1 ts cam st).st).evidence_attempts = 2)) := by
  refine ⟨fun now st h => handle_unknown_none p sOk now ts cam st h,
    fun now last st h => ⟨fun hlt => handle_unknown_stale p sOk now last ts cam st h hlt,
      fun hle => ?_⟩, ?_⟩
  · obtain ⟨a1, a2, a3⟩ := handle_unknown_recent p sOk now last ts cam st h hle
    exact ⟨a1, a3⟩
  · intro t1 t2 ts2 st h
    obtain ⟨a1, a2⟩ := handle_unknown_none p sOk t1 ts cam st h
    constructor
    · intro hle
      obtain ⟨b1, -, -⟩ := handle_unknown_recent p sOk t2 t1 ts2 cam
        (handle_unknown_face p sOk t1 ts cam st).st a2 hle
      rw [a1, b1]
    · intro hlt
      obtain ⟨b1, -⟩ := handle_unknown_stale p sOk t2 t1 ts2 cam
        (handle_unknown_face p sOk t1 ts cam st).st a2 hlt
      rw [a1, b1]

/-- A sample configuration used for concrete instantiations. -/
def sampleParams : Params :=
  { threshold := 2/5
    required_confirmations := 3
    unknown_interval := 5
    min_face_size := 80
    max_failures := 10
    reconnect_delay := 30
    db_embeddings := [[1, 0], [0, 1]]
    db_labels := ["Alice", "Bob"] }

/-- A sample timestamp. -/
def ts0 : Timestamp := ⟨"2026-01-01", "08:00:00"⟩

/-- C2 counterexample: with interval 5, two Unknown detections on the
same camera at times 0 and 5 — separated by at least the interval — yield
only one evidence write, because the gate requires the elapsed time to
strictly exceed the interval. -/
theorem C2_counterexample :
    sampleParams.unknown_interval ≤ 5 - 0 ∧
    (handle_unknown_face sampleParams true 0 ts0 "C1" initState).evidence_attempts = 1 ∧
    (handle_unknown_face sampleParams true 5 ts0 "C1"
      (handle_unknown_face sampleParams true 0 ts0 "C1" initState).st).evidence_attempts
      = 0 := by
  refine ⟨by norm_num [sampleParams], ?_, ?_⟩ <;>
    simp [handle_unknown_face, initState, sampleParams]

/-! ### Event emitter (should_emit_violation lemmas) -/

lemma should_emit_drop (W : ℚ) (tbl : EmitKey → ℚ) (cam name : String) (now : ℚ)
    (h : now - tbl (cam, name) < W) :
    should_emit_violation W tbl cam name now = (false, tbl) := by
  simp [should_emit_violation, h]

lemma should_emit_pass (W : ℚ) (tbl : EmitKey → ℚ) (cam name : String) (now : ℚ)
    (h : W ≤ now - tbl (cam, name)) :
    (should_emit_violation W tbl cam name now).1 = true ∧
    (should_emit_violation W tbl cam name now).2 (cam, name) = now ∧
    (∀ k, k ≠ (cam, name) → (should_emit_violation W tbl cam name now).2 k = tbl k) := by
  have hn : ¬ now - tbl (cam, name) < W := not_lt.mpr h
  refine ⟨by simp [should_emit_violation, hn], by simp [should_emit_violation, hn], ?_⟩
  intro k hk
  simp [should_emit_violation, hn, hk]

lemma emitFold_dropAll (W : ℚ) (cam name : String) (ts : List ℚ) :
    ∀ (tbl : EmitKey → ℚ) (t0 : ℚ), tbl (cam, name) = t0 →
    (∀ s ∈ ts, s - t0 < W) →
    (emitFold W cam name ts tbl).1 = 0 := by
  induction ts with
  | nil => intro tbl t0 _ _; simp [emitFold]
  | cons s rest ih =>
    intro tbl t0 htbl hs
    have hd : s - tbl (cam, name) < W := by
      rw [htbl]; exact hs s (List.mem_cons_self s rest)
    rw [emitFold, should_emit_drop W tbl cam name s hd]
    simp only
    rw [ih tbl t0 htbl (fun x hx => hs x (List.mem_cons_of_mem s hx))]
    simp

lemma emitFold_spaced (W : ℚ) (cam name : String) :
    ∀ (rest : List ℚ) (t : ℚ) (tbl : EmitKey → ℚ),
    W ≤ t - tbl (cam, name) →
    List.Chain (fun a b => W ≤ b - a) t rest →
    (emitFold W cam name (t :: rest) tbl).1 = rest.length + 1 := by
  intro rest
  induction rest with
  | nil =>
    intro t tbl h _
    obtain ⟨p1, -, -⟩ := should_emit_pass W tbl cam name t h
    simp [emitFold, p1]
  | cons u us ih =>
    intro t tbl h hchain
    obtain ⟨p1, p2, -⟩ := should_emit_pass W tbl cam name t h
    rcases hchain with _ | ⟨hu, hus⟩
    rw [emitFold]
    have h2 : W ≤ u - (should_emit_violation W tbl cam name t).2 (cam, name) := by
      rw [p2]; exact hu
    have := ih u (should_emit_violation W tbl cam name t).2 h2 hus
    rw [this, p1]
    simp
    omega

lemma emitFold_window (W : ℚ) (cam name : String) (t0 : ℚ) (ts : List ℚ)
    (tbl : EmitKey → ℚ) (h0 : W ≤ t0 - tbl (cam, name))
    (hs : ∀ s ∈ ts, s - t0 < W) :
    (emitFold W cam name (t0 :: ts) tbl).1 = 1 := by
  obtain ⟨p1, p2, -⟩ := should_emit_pass W tbl cam name t0 h0
  rw [emitFold]
  rw [emitFold_dropAll W cam name ts (should_emit_violation W tbl cam name t0).2 t0 p2 hs]
  rw [p1]
  simp

/-- C3: the emitter drops an event, leaving the per-(camera, label)
last-emission table unchanged, exactly when the elapsed time since the
recorded last emission (default 0 for an unseen key) is below the
configured window; otherwise it records the current time for the key,
leaves other keys alone, and forwards the event, and the recorded table
is the same whether or not the forward succeeds.  Consequently a
forwarded event followed by any number of events for the same key within
the window yields exactly one forwarded call, and events spaced at least
the window apart are each forwarded. -/
theorem C3_event_emitter_throttle (W : ℚ) (cam name : String) :
    (∀ (tbl : EmitKey → ℚ) (now : ℚ),
      ((should_emit_violation W tbl cam name now).1 = false ↔
        now - tbl (cam, name) < W) ∧
      ((should_emit_violation W tbl cam name now).1 = false →
        (should_emit_violation W tbl cam name now).2 = tbl) ∧
      ((should_emit_violation W tbl cam name now).1 = true →
        (should_emit_violation W tbl cam name now).2 (cam, name) = now ∧
        (∀ k, k ≠ (cam, name) →
          (should_emit_violation W tbl cam name now).2 k = tbl k))) ∧
    (∀ (tbl : EmitKey → ℚ) (now : ℚ) (fOk : Bool),
      (emit_violation true W fOk tbl cam name now).1
        = (should_emit_violation W tbl cam name now).1 ∧
      (emit_violation true W fOk tbl cam name now).2.2
        = (should_emit_violation W tbl cam name now).2) ∧
    (∀ (t0 : ℚ) (ts : List ℚ) (tbl : EmitKey → ℚ),
      W ≤ t0 - tbl (cam, name) → (∀ s ∈ ts, s - t0 < W) →
      (emitFold W cam name (t0 :: ts) tbl).1 = 1) ∧
    (∀ (t0 : ℚ) (ts : List ℚ) (tbl : EmitKey → ℚ),
      W ≤ t0 - tbl (cam, name) → List.Chain (fun a b => W ≤ b - a) t0 ts →
      (emitFold W cam name (t0 :: ts) tbl).1 = (t0 :: ts).length) := by
  refine ⟨?_, ?_, ?_, ?_⟩
  · intro tbl now
    by_cases h : now - tbl (cam, name) < W
    · rw [should_emit_drop W tbl cam name now h]
      simp [h]
    · obtain ⟨p1, p2, p3⟩ := should_emit_pass W tbl cam name now (not_lt.mp h)
      rw [p1]
      simp [h]
      exact ⟨p2, fun a b hab => p3 (a, b) (by simp [Prod.ext_iff]; exact hab)⟩
  · intro tbl now fOk
    simp only [emit_violation, if_pos]
    cases h : (should_emit_violation W tbl cam name now).1 <;> simp [h]
  · intro t0 ts tbl h0 hs
    exact emitFold_window W cam name t0 ts tbl h0 hs
  · intro t0 ts tbl h0 hchain
    rw [emitFold_spaced W cam name ts t0 tbl h0 hchain]
    simp

/-- C4: a detected box whose expanded crop is smaller than the configured
minimum face size in its shorter dimension never reaches the embedding
stage or the matcher, leaves the tracking state untouched, and yields
exactly one detection event with small_face = true, label "Unknown",
confidence 0 and no evidence filename; a box whose crop meets the minimum
proceeds to embedding and matching. -/
theorem C4_size_gate (p : Params) (oa sOk lOk : Bool) (imgW imgH : Int) (bbox : Box)
    (er : Option (List ℚ)) (ts : Timestamp) (now : ℚ) (cam : String) (st : TrackState) :
    (min (cropHeight (crop_face_with_buffer imgW imgH bbox))
        (cropWidth (crop_face_with_buffer imgW imgH bbox)) < p.min_face_size →
      (processBox p true oa sOk lOk imgW imgH bbox er ts now cam st).embed_invoked = false ∧
      (processBox p true oa sOk lOk imgW imgH bbox er ts now cam st).match_invoked = false ∧
      (processBox p true oa sOk lOk imgW imgH bbox er ts now cam st).st = st ∧
      (processBox p true oa sOk lOk imgW imgH bbox er ts now cam st).events
        = [⟨cam, "Unknown", 0, ts, bbox, none, true⟩]) ∧
    (p.min_face_size ≤ min (cropHeight (crop_face_with_buffer imgW imgH bbox))
        (cropWidth (crop_face_with_buffer imgW imgH bbox)) →
      (processBox p true oa sOk lOk imgW imgH bbox er ts now cam st).embed_invoked = true ∧
      (processBox p true oa sOk lOk imgW imgH bbox er ts now cam st).match_invoked = true) := by
  constructor
  · intro h
    rw [min_lt_iff] at h
    simp [processBox, if_pos h]
  · intro h
    rw [le_min_iff] at h
    have hn : ¬ (cropHeight (crop_face_with_buffer imgW imgH bbox) < p.min_face_size ∨
        cropWidth (crop_face_with_buffer imgW imgH bbox) < p.min_face_size) := by
      push_neg
      exact ⟨h.1, h.2⟩
    simp only [processBox, if_neg hn]
    split
    · exact ⟨rfl, rfl⟩
    · exact ⟨rfl, rfl⟩

/-! ### Matcher lemmas -/

lemma argminAux_snd (xs : List ℚ) : ∀ (bi i : Nat) (bv : ℚ),
    (argminAux (bi, bv) i xs).2 = xs.foldl min bv := by
  induction xs with
  | nil => intro bi i bv; simp [argminAux]
  | cons x xs ih =>
    intro bi i bv
    by_cases h : x < bv
    · rw [argminAux, if_pos h, ih, List.foldl_cons, min_eq_right (le_of_lt h)]
    · rw [argminAux, if_neg h, ih, List.foldl_cons, min_eq_left (not_lt.mp h)]

lemma foldl_min_le_init (xs : List ℚ) : ∀ bv : ℚ, xs.foldl min bv ≤ bv := by
  induction xs with
  | nil => intro bv; simp
  | cons x xs ih =>
    intro bv
    rw [List.foldl_cons]
    exact le_trans (ih (min bv x)) (min_le_left _ _)

lemma foldl_min_le_mem (xs : List ℚ) : ∀ (bv y : ℚ), y ∈ xs → xs.foldl min bv ≤ y := by
  induction xs with
  | nil => intro bv y h; cases h
  | cons x xs ih =>
    intro bv y h
    rw [List.foldl_cons]
    rcases List.mem_cons.mp h with rfl | h2
    · exact le_trans (foldl_min_le_init xs (min bv y)) (min_le_right _ _)
    · exact ih (min bv x) y h2

lemma argminAux_spec (xs : List ℚ) : ∀ (bi i : Nat) (bv : ℚ),
    (argminAux (bi, bv) i xs = (bi, bv) ∧
      (∀ (k : Nat) (y : ℚ), xs[k]? = some y → bv ≤ y)) ∨
    (∃ k : Nat, xs[k]? = some (argminAux (bi, bv) i xs).2 ∧
      (argminAux (bi, bv) i xs).1 = i + k ∧ (argminAux (bi, bv) i xs).2 < bv ∧
      (∀ (m : Nat) (y : ℚ), m < k → xs[m]? = some y →
        (argminAux (bi, bv) i xs).2 < y)) := by
  induction xs with
  | nil =>
    intro bi i bv
    left
    refine ⟨rfl, ?_⟩
    intro k y h
    simp at h
  | cons x xs ih =>
    intro bi i bv
    by_cases h : x < bv
    · rw [argminAux, if_pos h]
      rcases ih i (i + 1) x with ⟨a1, a2⟩ | ⟨k, b1, b2, b3, b4⟩
      · right
        refine ⟨0, ?_, ?_, ?_, ?_⟩
        · rw [a1]; simp
        · rw [a1]; simp
        · rw [a1]; exact h
        · intro m y hm _; omega
      · right
        refine ⟨k + 1, ?_, ?_, ?_, ?_⟩
        · simpa using b1
        · rw [b2]; omega
        · exact lt_trans b3 h
        · intro m y hm hget
          rcases m with - | m2
          · simp at hget
            rw [← hget]
            exact b3
          · exact b4 m2 y (by omega) (by simpa using hget)
    · rw [argminAux, if_neg h]
      rcases ih bi (i + 1) bv with ⟨a1, a2⟩ | ⟨k, b1, b2, b3, b4⟩
      · left
        refine ⟨a1, ?_⟩
        intro k y hget
        rcases k with - | k2
        · simp at hget
          rw [← hget]
          exact not_lt.mp h
        · exact a2 k2 y (by simpa using hget)
      · right
        refine ⟨k + 1, ?_, ?_, ?_, ?_⟩
        · simpa using b1
        · rw [b2]; omega
        · exact b3
        · intro m y hm hget
          rcases m with - | m2
          · simp at hget
            rw [← hget]
            exact lt_of_lt_of_le b3 (not_lt.mp h)
          · exact b4 m2 y (by omega) (by simpa using hget)

lemma argminList_spec (d : ℚ) (ds : List ℚ) :
    (d :: ds)[(argminList d ds).1]? = some (argminList d ds).2 ∧
    (∀ y ∈ d :: ds, (argminList d ds).2 ≤ y) ∧
    (∀ (m : Nat) (y : ℚ), m < (argminList d ds).1 → (d :: ds)[m]? = some y →
      (argminList d ds).2 < y) := by
  have hsnd : (argminList d ds).2 = ds.foldl min d := argminAux_snd ds 0 1 d
  have hmem : ∀ y ∈ d :: ds, (argminList d ds).2 ≤ y := by
    intro y hy
    rw [hsnd]
    rcases List.mem_cons.mp hy with rfl | h2
    · exact foldl_min_le_init ds y
    · exact foldl_min_le_mem ds d y h2
  rcases argminAux_spec ds 0 1 d with ⟨a1, a2⟩ | ⟨k, b1, b2, b3, b4⟩
  · refine ⟨?_, hmem, ?_⟩
    · rw [argminList, a1]; simp
    · intro m y hm hget
      rw [argminList, a1] at hm
      simp at hm
  · refine ⟨?_, hmem, ?_⟩
    · rw [argminList, b2]
      have h1k : 1 + k = k + 1 := by omega
      rw [h1k]
      simpa using b1
    · intro m y hm hget
      rw [argminList, b2] at hm
      rcases m with - | m2
      · simp at hget
        rw [argminList, ← hget]
        exact b3
      · exact b4 m2 y (by omega) (by simpa using hget)

/-- C5: for every non-empty gallery, match_face computes the cosine
distance from the query to every gallery vector and selects the minimum,
taken at the first minimizing index in gallery order; when that minimum
is strictly below the threshold it returns the label at that index,
otherwise the Unknown sentinel — so the result is always a gallery label
or "Unknown" — and a query identical to a unit-normalized gallery entry
(all gallery distances being nonnegative and earlier entries distinct)
returns that entry's label with distance exactly 0. -/
theorem C5_matcher (p : Params) (e g : List ℚ) (gs : List (List ℚ))
    (hg : p.db_embeddings = g :: gs)
    (hlen : p.db_labels.length = p.db_embeddings.length) :
    ((match_face p (some e)).1 = "Unknown" ∨ (match_face p (some e)).1 ∈ p.db_labels) ∧
    ((p.db_embeddings.map (cosineDistance e))[(argminList (cosineDistance e g)
        (gs.map (cosineDistance e))).1]?
      = some (argminList (cosineDistance e g) (gs.map (cosineDistance e))).2) ∧
    (∀ dv ∈ p.db_embeddings.map (cosineDistance e),
      (argminList (cosineDistance e g) (gs.map (cosineDistance e))).2 ≤ dv) ∧
    (∀ (m : Nat) (y : ℚ),
      m < (argminList (cosineDistance e g) (gs.map (cosineDistance e))).1 →
      (p.db_embeddings.map (cosineDistance e))[m]? = some y →
      (argminList (cosineDistance e g) (gs.map (cosineDistance e))).2 < y) ∧
    ((argminList (cosineDistance e g) (gs.map (cosineDistance e))).2 < p.threshold →
      ∃ l, p.db_labels[(argminList (cosineDistance e g) (gs.map (cosineDistance e))).1]?
          = some l ∧
        match_face p (some e)
          = (l, (argminList (cosineDistance e g) (gs.map (cosineDistance e))).2)) ∧
    (p.threshold ≤ (argminList (cosineDistance e g) (gs.map (cosineDistance e))).2 →
      match_face p (some e)
        = ("Unknown", (argminList (cosineDistance e g) (gs.map (cosineDistance e))).2)) ∧
    (∀ i : Nat, p.db_embeddings[i]? = some e → dot e e = 1 →
      (∀ v ∈ p.db_embeddings, dot e v ≤ 1) →
      (∀ (j : Nat) (v : List ℚ), j < i → p.db_embeddings[j]? = some v → dot e v < 1) →
      0 < p.threshold →
      ∃ l, p.db_labels[i]? = some l ∧ match_face p (some e) = (l, 0)) := by
  have hL : p.db_embeddings.map (cosineDistance e)
      = cosineDistance e g :: gs.map (cosineDistance e) := by
    rw [hg]; simp
  obtain ⟨s1, s2, s3⟩ := argminList_spec (cosineDistance e g) (gs.map (cosineDistance e))
  set r := argminList (cosineDistance e g) (gs.map (cosineDistance e)) with hr
  have hm : match_face p (some e) =
      (if r.2 < p.threshold then
        match p.db_labels[r.1]? with
        | some l => (l, r.2)
        | none => ("Unknown", 1)
      else ("Unknown", r.2)) := by
    simp only [match_face, hg]
  have hLlen : (cosineDistance e g :: gs.map (cosineDistance e)).length
      = p.db_labels.length := by
    rw [← hL, List.length_map, hlen]
  have hidx : r.1 < p.db_labels.length := by
    have h1 := (List.getElem?_eq_some.mp s1).1
    omega
  have hlbl : p.db_labels[r.1]? = some (p.db_labels[r.1]) :=
    List.getElem?_eq_getElem hidx
  have hsafe : (match_face p (some e)).1 = "Unknown" ∨
      (match_face p (some e)).1 ∈ p.db_labels := by
    rw [hm]
    by_cases hth : r.2 < p.threshold
    · rw [if_pos hth, hlbl]
      right
      simp
    · rw [if_neg hth]
      left
      rfl
  have hbelow : r.2 < p.threshold →
      ∃ l, p.db_labels[r.1]? = some l ∧ match_face p (some e) = (l, r.2) := by
    intro hth
    exact ⟨p.db_labels[r.1], hlbl, by rw [hm, if_pos hth, hlbl]⟩
  refine ⟨hsafe, by rw [hL]; exact s1, by rw [hL]; exact s2,
    by rw [hL]; exact s3, hbelow, ?_, ?_⟩
  · intro hth
    rw [hm, if_neg (not_lt.mpr hth)]
  · intro i hi hunit hcs hfirst hth
    have hLi : (cosineDistance e g :: gs.map (cosineDistance e))[i]? = some 0 := by
      rw [← hL, List.getElem?_map, hi]
      simp [cosineDistance, hunit]
    have hnn : ∀ y ∈ cosineDistance e g :: gs.map (cosineDistance e), 0 ≤ y := by
      intro y hy
      rw [← hL] at hy
      obtain ⟨v, hv, hfy⟩ := List.mem_map.mp hy
      rw [← hfy]
      have hvle := hcs v hv
      simp only [cosineDistance]
      linarith
    have hr2mem : r.2 ∈ cosineDistance e g :: gs.map (cosineDistance e) :=
      List.mem_iff_getElem?.mpr ⟨r.1, s1⟩
    have hle0 : r.2 ≤ 0 := s2 0 (List.mem_iff_getElem?.mpr ⟨i, hLi⟩)
    have hr2 : r.2 = 0 := le_antisymm hle0 (hnn r.2 hr2mem)
    have hri : r.1 = i := by
      rcases lt_trichotomy r.1 i with hlt | heq | hgt
      · exfalso
        have hs1m := s1
        rw [← hL, List.getElem?_map] at hs1m
        cases hv : p.db_embeddings[r.1]? with
        | none => rw [hv] at hs1m; simp at hs1m
        | some v =>
          rw [hv] at hs1m
          simp at hs1m
          have hd1 : dot e v < 1 := hfirst r.1 v hlt hv
          have hcv := hs1m
          rw [hr2] at hcv
          simp only [cosineDistance] at hcv
          linarith
      · exact heq
      · exfalso
        have hcontra := s3 i 0 hgt hLi
        rw [hr2] at hcontra
        exact lt_irrefl 0 hcontra
    obtain ⟨l, hl1, hl2⟩ := hbelow (by rw [hr2]; exact hth)
    refine ⟨l, by rw [← hri]; exact hl1, by rw [hl2, hr2]⟩

/-! ### Crop geometry lemmas -/

lemma pyInt_nonneg (q : ℚ) (h : 0 ≤ q) : 0 ≤ pyInt q := by
  rw [pyInt, if_pos h]
  exact Int.floor_nonneg.mpr h

lemma pyInt_le_of_le (q : ℚ) (c : Int) (hq : q ≤ (c : ℚ)) : pyInt q ≤ c := by
  rw [pyInt]
  split
  · calc ⌊q⌋ ≤ ⌊(c : ℚ)⌋ := Int.floor_le_floor hq
    _ = c := Int.floor_intCast c
  · exact Int.ceil_le.mpr hq

lemma expandClip_bounds (imgW imgH : Int) (b : Box) (ex eu ed : ℚ) :
    0 ≤ (expandClip imgW imgH b ex eu ed).x1 ∧
    (expandClip imgW imgH b ex eu ed).x2 ≤ imgW ∧
    0 ≤ (expandClip imgW imgH b ex eu ed).y1 ∧
    (expandClip imgW imgH b ex eu ed).y2 ≤ imgH :=
  ⟨pyInt_nonneg _ (le_max_left _ _),
    pyInt_le_of_le _ _ (min_le_left _ _),
    pyInt_nonneg _ (le_max_left _ _),
    pyInt_le_of_le _ _ (min_le_left _ _)⟩

/-- C6: the expanded crop uses exactly the three area-selected expansion
tiers of the source — area < 8000 px² gives (0.2, 0.2, 0.3),
area < 25000 px² gives (0.15, 0.15, 0.3), larger boxes (0.1, 0.1, 0.1) —
the expanded window is clipped to the frame bounds, and for the 100×50
box of area 5000 centered in a 1280×720 frame the crop strictly contains
the original box. -/
theorem C6_crop_geometry (imgW imgH : Int) (b : Box) :
    ((b.x2 - b.x1) * (b.y2 - b.y1) < 8000 →
      crop_face_with_buffer imgW imgH b
        = expandClip imgW imgH b (2/10) (2/10) (3/10)) ∧
    (8000 ≤ (b.x2 - b.x1) * (b.y2 - b.y1) → (b.x2 - b.x1) * (b.y2 - b.y1) < 25000 →
      crop_face_with_buffer imgW imgH b
        = expandClip imgW imgH b (15/100) (15/100) (3/10)) ∧
    (25000 ≤ (b.x2 - b.x1) * (b.y2 - b.y1) →
      crop_face_with_buffer imgW imgH b
        = expandClip imgW imgH b (1/10) (1/10) (1/10)) ∧
    (0 ≤ (crop_face_with_buffer imgW imgH b).x1 ∧
      (crop_face_with_buffer imgW imgH b).x2 ≤ imgW ∧
      0 ≤ (crop_face_with_buffer imgW imgH b).y1 ∧
      (crop_face_with_buffer imgW imgH b).y2 ≤ imgH) ∧
    ((crop_face_with_buffer 1280 720 ⟨590, 335, 690, 385⟩).x1 < 590 ∧
      690 < (crop_face_with_buffer 1280 720 ⟨590, 335, 690, 385⟩).x2 ∧
      (crop_face_with_buffer 1280 720 ⟨590, 335, 690, 385⟩).y1 < 335 ∧
      385 < (crop_face_with_buffer 1280 720 ⟨590, 335, 690, 385⟩).y2) := by
  refine ⟨?_, ?_, ?_, ?_, ?_⟩
  · intro h
    simp [crop_face_with_buffer, expandFractions, if_pos h]
  · intro h1 h2
    simp [crop_face_with_buffer, expandFractions, if_neg (not_lt.mpr h1), if_pos h2]
  · intro h
    have h8 : ¬ (b.x2 - b.x1) * (b.y2 - b.y1) < 8000 :=
      not_lt.mpr (le_trans (show (8000 : Int) ≤ 25000 by norm_num) h)
    have h25 : ¬ (b.x2 - b.x1) * (b.y2 - b.y1) < 25000 := not_lt.mpr h
    simp [crop_face_with_buffer, expandFractions, h8, h25]
  · exact expandClip_bounds imgW imgH b _ _ _
  · refine ⟨?_, ?_, ?_, ?_⟩ <;>
    · simp [crop_face_with_buffer, expandClip, expandFractions, pyInt]
      norm_num [max_def, min_def, Int.floor_eq_iff]

/-! ### Camera-worker reconnect lemmas -/

lemma failStep_iterate_lt (p : Params) : ∀ (k c : Nat), c + k < p.max_failures →
    (failStep p)^[k] ⟨true, c⟩ = ⟨true, c + k⟩ := by
  intro k
  induction k with
  | zero => intro c _; simp
  | succ n ih =>
    intro c h
    rw [Function.iterate_succ_apply]
    have hstep : failStep p ⟨true, c⟩ = ⟨true, c + 1⟩ := by
      rw [failStep, if_neg (by simp; omega)]
    rw [hstep, ih (c + 1) (by omega)]
    congr 1
    omega

lemma failStep_iterate_release (p : Params) : ∀ (k c : Nat), 1 ≤ k →
    c + k = p.max_failures →
    (failStep p)^[k] ⟨true, c⟩ = ⟨false, 0⟩ := by
  intro k
  induction k with
  | zero => intro c h; omega
  | succ n ih =>
    intro c _ h2
    rw [Function.iterate_succ_apply]
    rcases Nat.eq_zero_or_pos n with hn | hn
    · subst hn
      have hstep : failStep p ⟨true, c⟩ = ⟨false, 0⟩ := by
        rw [failStep, if_pos (by simp; omega)]
      rw [hstep]
      rfl
    · have hstep : failStep p ⟨true, c⟩ = ⟨true, c + 1⟩ := by
        rw [failStep, if_neg (by simp; omega)]
      rw [hstep]
      exact ih (c + 1) (by omega) (by omega)

lemma backoffTicks_all : ∀ (d : Nat) (f : Nat → Bool), (∀ i, f i = true) →
    backoffTicks d f = d := by
  intro d
  induction d with
  | zero => intro f _; rfl
  | succ n ih =>
    intro f hf
    rw [backoffTicks, hf 0]
    simp [ih (fun i => f (i + 1)) (fun i => hf (i + 1))]

lemma backoffTicks_min : ∀ (d k : Nat) (f : Nat → Bool),
    (∀ i, i < k → f i = true) → f k = false →
    backoffTicks d f = min d k := by
  intro d
  induction d with
  | zero => intro k f _ _; simp [backoffTicks]
  | succ n ih =>
    intro k f hk hfk
    rcases k with - | k2
    · rw [backoffTicks, hfk]
      simp
    · have h0 : f 0 = true := hk 0 (by omega)
      rw [backoffTicks, h0]
      simp only [if_pos]
      rw [ih k2 (fun i => f (i + 1)) (fun i hi => hk (i + 1) (by omega)) hfk]
      omega

/-- C8: after max_failures consecutive failed frame reads the worker
releases the capture handle and resets the failure counter (and not
before); the subsequent loop iteration waits the configured reconnect
delay, checking the cancellation flag every one-second tick, and then
attempts to reopen the source; a stop requested during the backoff stops
the sleeping at the next per-second check — at most one tick after the
request — and no reopen is attempted, instead of blocking for the full
delay. -/
theorem C8_reconnect_backoff (p : Params) (hM : 1 ≤ p.max_failures) :
    ((failStep p)^[p.max_failures] ⟨true, 0⟩ = ⟨false, 0⟩) ∧
    (∀ k, k < p.max_failures → (failStep p)^[k] ⟨true, 0⟩ = ⟨true, k⟩) ∧
    (∀ (delay : Nat) (flag : Nat → Bool), (∀ i, flag i = true) →
      reconnectBranch delay flag = (delay, true)) ∧
    (∀ (delay k : Nat) (flag : Nat → Bool), flag 0 = true →
      (∀ i, i < k → flag (i + 1) = true) → flag (k + 1) = false →
      (reconnectBranch delay flag).1 = min delay k ∧
      (k ≤ delay → (reconnectBranch delay flag).2 = false)) := by
  refine ⟨failStep_iterate_release p p.max_failures 0 hM (by omega), ?_, ?_, ?_⟩
  · intro k hk
    have := failStep_iterate_lt p k 0 (by omega)
    simpa using this
  · intro delay flag hf
    rw [reconnectBranch, if_pos (hf 0),
      backoffTicks_all delay (fun i => flag (i + 1)) (fun i => hf (i + 1))]
    simp [hf]
  · intro delay k flag h0 hk hfk
    have hticks : backoffTicks delay (fun i => flag (i + 1)) = min delay k :=
      backoffTicks_min delay k (fun i => flag (i + 1)) (fun i hi => hk i hi) hfk
    rw [reconnectBranch, if_pos h0, hticks]
    refine ⟨rfl, ?_⟩
    intro hkd
    show flag (min delay k + 1) = false
    rw [min_eq_right hkd]
    exact hfk

/-- C9 counterexample: a source capturing at 1920×600 exceeds the
1280×720 streaming target in width, so the worker resizes the frame to
1280×720 — whose height 720 exceeds the capture height 600, i.e. the
frame is upsampled in one dimension. -/
theorem C9_counterexample :
    resizeFrame (1920, 600) (1280, 720) = (1280, 720) ∧
    (1920, 600).2 < (resizeFrame (1920, 600) (1280, 720)).2 := by
  refine ⟨?_, ?_⟩ <;> decide

/-- C9 (amended): the worker resizes a frame to the fixed streaming
target exactly when the capture resolution exceeds the target in width or
in height; a capture within the target in both dimensions is left alone,
and when the capture is at least the target in both dimensions — as for
the negotiated 16:9 resolutions — the resized frame never exceeds the
capture resolution in either dimension.  (A capture exceeding the target
in only one dimension is resized to the full target and is therefore
upsampled in the other dimension.) -/
theorem C9_downsample_amended (capture stream : Nat × Nat) :
    (stream.1 < capture.1 ∨ stream.2 < capture.2 →
      resizeFrame capture stream = stream) ∧
    (capture.1 ≤ stream.1 → capture.2 ≤ stream.2 →
      resizeFrame capture stream = capture) ∧
    (stream.1 ≤ capture.1 → stream.2 ≤ capture.2 →
      (resizeFrame capture stream).1 ≤ capture.1 ∧
      (resizeFrame capture stream).2 ≤ capture.2) := by
  refine ⟨?_, ?_, ?_⟩
  · intro h
    simp [resizeFrame, downsampleTarget, if_pos h]
  · intro h1 h2
    have hn : ¬ (stream.1 < capture.1 ∨ stream.2 < capture.2) := by
      push_neg
      exact ⟨h1, h2⟩
    simp [resizeFrame, downsampleTarget, if_neg hn]
  · intro h1 h2
    by_cases h : stream.1 < capture.1 ∨ stream.2 < capture.2
    · simp [resizeFrame, downsampleTarget, if_pos h]
      exact ⟨h1, h2⟩
    · simp [resizeFrame, downsampleTarget, if_neg h]

/-! ### Witnesses: each claim theorem applied at a concrete input -/

/-- Witness for C1: threshold 3, eight sightings of "Alice", one row. -/
theorem C1_attendance_state_machine_witness :
    (runKnown sampleParams true true true true "Alice" 1 "C1" ⟨0, 0, 100, 100⟩
      (List.replicate 8 ts0) initState).rows.length = 1 :=
  (C1_attendance_state_machine sampleParams true "Alice" 1 "C1" ⟨0, 0, 100, 100⟩
    (List.replicate 8 ts0) initState (by decide) rfl rfl (by decide)).2.1

/-- Witness for C2 (amended): a first detection with no prior save writes. -/
theorem C2_unknown_throttle_witness :
    (handle_unknown_face sampleParams true 0 ts0 "C1" initState).evidence_attempts = 1 :=
  ((C2_unknown_throttle_amended sampleParams true ts0 "C1").1 0 initState rfl).1

/-- Witness for C3: an event 3 seconds after the recorded emission is
dropped under a 5-second window. -/
theorem C3_event_emitter_witness :
    (should_emit_violation 5 (fun _ => 0) "C1" "Alice" 3).1 = false :=
  ((C3_event_emitter_throttle 5 "C1" "Alice").1 (fun _ => 0) 3).1.mpr (by norm_num)

/-- Witness for C4: a 10×10 box yields a crop below the 80-pixel minimum
and the embedding stage is not invoked. -/
theorem C4_size_gate_witness :
    (processBox sampleParams true true true true 1280 720 ⟨0, 0, 10, 10⟩ none ts0 0
      "C1" initState).embed_invoked = false :=
  ((C4_size_gate sampleParams true true true 1280 720 ⟨0, 0, 10, 10⟩ none ts0 0
    "C1" initState).1 (by
      simp [crop_face_with_buffer, expandClip, expandFractions, pyInt, cropHeight,
        cropWidth, sampleParams]
      norm_num [max_def, min_def, Int.floor_eq_iff])).1

/-- Witness for C5: the query [1,0] matches gallery entry 0 ("Alice")
at distance 0. -/
theorem C5_matcher_witness :
    ∃ l, sampleParams.db_labels[(0 : Nat)]? = some l ∧
      match_face sampleParams (some [1, 0]) = (l, 0) :=
  (C5_matcher sampleParams [1, 0] [1, 0] [[0, 1]] rfl rfl).2.2.2.2.2.2 0 rfl
    (by norm_num [dot])
    (by
      intro v hv
      simp [sampleParams] at hv
      rcases hv with rfl | rfl <;> norm_num [dot])
    (fun j v hj _ => absurd hj (Nat.not_lt_zero j))
    (by norm_num [sampleParams])

/-- Witness for C6: the area-5000 box selects the first expansion tier. -/
theorem C6_crop_geometry_witness :
    crop_face_with_buffer 1280 720 ⟨590, 335, 690, 385⟩
      = expandClip 1280 720 ⟨590, 335, 690, 385⟩ (2/10) (2/10) (3/10) :=
  (C6_crop_geometry 1280 720 ⟨590, 335, 690, 385⟩).1 (by norm_num)

/-- Witness for C7: with threshold 1 and a failing image write, the first
sighting of "Alice" still confirms attendance. -/
theorem C7_storage_failure_witness :
    (knownSighting { sampleParams with required_confirmations := 1 } true true false true
      "Alice" 1 ts0 "C1" ⟨0, 0, 10, 10⟩ initState).st.attendance_log "Alice" = some ts0 :=
  (C7_storage_failure_no_rollback { sampleParams with required_confirmations := 1 }
    true false true "Alice" 1 ts0 "C1" ⟨0, 0, 10, 10⟩ initState (Or.inl rfl) rfl
    (by decide)).1

/-- Witness for C8: a stop observed at the third per-second check of a
30-second backoff stops the wait after 2 sleeps. -/
theorem C8_reconnect_backoff_witness :
    (reconnectBranch 30 (fun i => decide (i < 3))).1 = min 30 2 :=
  ((C8_reconnect_backoff sampleParams (by decide)).2.2.2 30 2 (fun i => decide (i < 3))
    (by decide) (by decide) (by decide)).1

/-- Witness for C9 (amended): a 1920×1080 capture downsampled to the
1280×720 target is not upsampled in either dimension. -/
theorem C9_downsample_witness :
    (resizeFrame (1920, 1080) (1280, 720)).1 ≤ 1920 ∧
    (resizeFrame (1920, 1080) (1280, 720)).2 ≤ 1080 :=
  (C9_downsample_amended (1920, 1080) (1280, 720)).2.2 (by decide) (by decide)

/-- Witness for C10: one pipeline step from the initial state keeps the
confirmation invariant. -/
theorem C10_confirmation_invariant_witness :
    TrackInv sampleParams (processBox sampleParams true true true true 1280 720
      ⟨0, 0, 100, 100⟩ (some [1, 0]) ts0 0 "C1" initState).st :=
  (C10_confirmation_invariant sampleParams true true true true 1280 720
    ⟨0, 0, 100, 100⟩ (some [1, 0]) ts0 0 "C1" initState (by decide)
    (by
      intro n
      constructor
      · simp [initState, sampleParams]
      · simp [initState, sampleParams])).2.1

end VisionHub
